import Mathlib

/-!
Shallow embedding of the `cachestore` Go package (src/cachestore.go).

Modelling choices:
* `time.Time` is modelled as `Int`; the Go zero time is `0` and `time.Now()`
  is always strictly positive. `t1.After t2` is `t2 < t1`.
* `time.Duration` is an `Int` (it may be zero or negative in Go).
* The dynamically typed payload `any` is modelled by `GoVal` with a runtime
  type tag `GoType`; Go's single-result type assertion `x.(T)` succeeds when
  the runtime type matches and panics otherwise, which the read operations
  surface as the explicit outcome `GetResult.panicked`.
* The package-level `sync.Map` plus the `disabled` flag form the `Store`
  state; the map is an association list over which `Range`-and-`Delete`
  passes become `List.filter` with the keep-predicate of the Go loop body.
* Every operation that reads the clock takes the current time as an explicit
  parameter (`now`, or `t0` for the start-timestamp captured by
  `DeleteTag`/`Clear`).
-/

namespace Cachestore

/-- Runtime type tags for the dynamically typed values stored in the cache. -/
inductive GoType where
  | tInt
  | tStr
  | tBool
deriving DecidableEq, Repr

/-- Dynamically typed values: the Go `any` payloads stored by `Set`. -/
inductive GoVal where
  | vInt (n : Int)
  | vStr (s : String)
  | vBool (b : Bool)
deriving DecidableEq, Repr

/-- The runtime type of a stored value. -/
def GoVal.typeOf : GoVal → GoType
  | .vInt _ => .tInt
  | .vStr _ => .tStr
  | .vBool _ => .tBool

/-- The `item` struct of cachestore.go: tag, payload, creation time and
expiry time; `expiresAt = 0` models the Go zero `time.Time` ("never expires"). -/
structure Item where
  tag : String
  data : GoVal
  createdAt : Int
  expiresAt : Int
deriving DecidableEq, Repr

/-- `(*item).Expired`: false when `expiresAt` is the zero time, otherwise
`time.Now().After(expiresAt)`, i.e. strictly after. -/
def Item.Expired (it : Item) (now : Int) : Bool :=
  if it.expiresAt = 0 then false
  else decide (it.expiresAt < now)

/-- `(*item).CreateAfter(t)`: `createdAt.After(t)`, i.e. strictly after. -/
def Item.CreateAfter (it : Item) (t : Int) : Bool :=
  decide (t < it.createdAt)

/-- `SetOptions` of cachestore.go. -/
structure SetOptions where
  Tag : String
  TTL : Int
deriving DecidableEq, Repr

/-- The package-level state: the atomic `disabled` flag and the `sync.Map`
keyed by `string`, modelled as an association list. -/
structure Store where
  disabled : Bool
  map : List (String × Item)
deriving DecidableEq, Repr

/-- `sync.Map.Load`: first entry under the key, if any. -/
def storeLoad : List (String × Item) → String → Option Item
  | [], _ => none
  | p :: rest, key => if p.1 = key then some p.2 else storeLoad rest key

/-- `sync.Map.Store`: replace the entry under the key, or append a new one. -/
def storeInsert : List (String × Item) → String → Item → List (String × Item)
  | [], key, it => [(key, it)]
  | p :: rest, key, it =>
      if p.1 = key then (key, it) :: rest else p :: storeInsert rest key it

/-- `sync.Map.Delete`: drop the entry under the key. -/
def storeDelete (l : List (String × Item)) (key : String) : List (String × Item) :=
  l.filter (fun p => !(p.1 == key))

/-- The `sync.Map` never holds two entries under one key; concrete stores
used in witnesses satisfy this, and theorems about whole-map scans assume it. -/
def nodupKeys (l : List (String × Item)) : Prop :=
  (l.map Prod.fst).Nodup

instance (l : List (String × Item)) : Decidable (nodupKeys l) := by
  unfold nodupKeys; infer_instance

/-- `SetDisable`: store the flag (the atomic uint32 of the Go code). -/
def SetDisable (s : Store) (value : Bool) : Store :=
  { s with disabled := value }

/-- `Set(key, value, opt)` at clock reading `now = time.Now()`:
no-op when disabled; otherwise build the item (tag and
`expiresAt = createdAt + TTL` only when `opt` is non-nil) and store it. -/
def Set (s : Store) (key : String) (value : GoVal) (opt : Option SetOptions)
    (now : Int) : Store :=
  if s.disabled then s
  else
    let it : Item :=
      match opt with
      | none => { tag := "", data := value, createdAt := now, expiresAt := 0 }
      | some o =>
          { tag := o.Tag, data := value, createdAt := now, expiresAt := now + o.TTL }
    { s with map := storeInsert s.map key it }

/-- Outcome of a typed read `Get[T]`/`GetStale[T]`: the value (assertion
succeeded), the zero-value "not found" return, or a runtime panic raised by
the single-result type assertion `it.data.(T)`. -/
inductive GetResult where
  | found (v : GoVal)
  | notFound
  | panicked
deriving DecidableEq, Repr

/-- `Get[T](key)` at clock reading `now`: not-found when disabled, absent or
expired; otherwise the type assertion `it.data.(T)`. -/
def Get (s : Store) (T : GoType) (key : String) (now : Int) : GetResult :=
  if s.disabled then .notFound
  else
    match storeLoad s.map key with
    | none => .notFound
    | some it =>
        if it.Expired now then .notFound
        else if it.data.typeOf = T then .found it.data else .panicked

/-- `GetStale[T](key)`: like `Get` but without the expiry check; it never
reads the clock. -/
def GetStale (s : Store) (T : GoType) (key : String) : GetResult :=
  if s.disabled then .notFound
  else
    match storeLoad s.map key with
    | none => .notFound
    | some it =>
        if it.data.typeOf = T then .found it.data else .panicked

/-- `Delete(key)`. -/
def Delete (s : Store) (key : String) : Store :=
  { s with map := storeDelete s.map key }

/-- Keep-predicate of the `DeleteTag` scan body: keep items created after the
captured start timestamp, delete matching tags, keep the rest. -/
def keepDeleteTag (tag : String) (t0 : Int) (it : Item) : Bool :=
  if it.CreateAfter t0 then true
  else if it.tag == tag then false
  else true

/-- `DeleteTag(tag)` with start timestamp `t0 = time.Now()` captured at entry:
range over the map deleting per `keepDeleteTag`. -/
def DeleteTag (s : Store) (tag : String) (t0 : Int) : Store :=
  { s with map := s.map.filter (fun p => keepDeleteTag tag t0 p.2) }

/-- Keep-predicate of the `Clear` scan body: only items created after the
captured start timestamp survive. -/
def keepClear (t0 : Int) (it : Item) : Bool :=
  if it.CreateAfter t0 then true else false

/-- `Clear()` with start timestamp `t0` captured at entry. -/
def Clear (s : Store) (t0 : Int) : Store :=
  { s with map := s.map.filter (fun p => keepClear t0 p.2) }

/-- Keep-predicate of the `GC` scan body: expired items are deleted. -/
def keepGC (now : Int) (it : Item) : Bool :=
  if it.Expired now then false else true

/-- `GC()` at clock reading `now`. -/
def GC (s : Store) (now : Int) : Store :=
  { s with map := s.map.filter (fun p => keepGC now p.2) }

/-- `RunGCInterval(ctx, d)`: returns at once when `d <= 0`; otherwise runs
`GC` on every ticker tick until the context is cancelled. `ticks` is the
sequence of clock readings at the ticks delivered before cancellation; the
second component counts the `GC` invocations performed. -/
def RunGCInterval (s : Store) (d : Int) (ticks : List Int) : Store × Nat :=
  if d ≤ 0 then (s, 0)
  else (ticks.foldl (fun st now => GC st now) s, ticks.length)

/-- A concrete store used to instantiate the theorems: two items tagged `t`
created at times 1 and 10, and an untagged item expiring at time 4. -/
def exStore : Store :=
  { disabled := false
    map :=
      [ ("a", { tag := "t", data := .vInt 1, createdAt := 1, expiresAt := 0 })
      , ("b", { tag := "t", data := .vInt 2, createdAt := 10, expiresAt := 0 })
      , ("c", { tag := "u", data := .vStr "x", createdAt := 1, expiresAt := 4 }) ] }

/-- A store holding a string value under `"k"`: reading it at expected type
`tInt` makes the Go type assertion `it.data.(T)` fail. -/
def exMismatch : Store :=
  { disabled := false
    map := [("k", { tag := "", data := .vStr "x", createdAt := 1, expiresAt := 0 })] }

/-- A disabled store that still holds one previously written entry. -/
def exDisabled : Store :=
  { disabled := true
    map := [("old", { tag := "", data := .vInt 7, createdAt := 1, expiresAt := 0 })] }

/-! ### Lemmas about the association-list map -/

theorem storeLoad_eq_none_of_not_mem :
    ∀ (l : List (String × Item)) (key : String),
      key ∉ l.map Prod.fst → storeLoad l key = none := by
  intro l
  induction l with
  | nil => intro key _; rfl
  | cons p rest ih =>
    intro key h
    simp only [List.map_cons, List.mem_cons, not_or] at h
    simp only [storeLoad]
    rw [if_neg fun hp => h.1 hp.symm]
    exact ih key h.2

theorem storeLoad_filterItem (q : Item → Bool) :
    ∀ (l : List (String × Item)), nodupKeys l → ∀ key,
      storeLoad (l.filter (fun p => q p.2)) key =
        (storeLoad l key).bind (fun it => if q it then some it else none) := by
  intro l
  induction l with
  | nil => intro _ key; rfl
  | cons p rest ih =>
    intro h key
    rw [nodupKeys, List.map_cons, List.nodup_cons] at h
    obtain ⟨hp, hrest⟩ := h
    by_cases hk : p.1 = key
    · subst hk
      by_cases hq : q p.2
      · simp [storeLoad, List.filter_cons, hq]
      · have hnone : storeLoad (rest.filter (fun p2 => q p2.2)) p.1 = none := by
          apply storeLoad_eq_none_of_not_mem
          intro hmem
          apply hp
          obtain ⟨x, hx, hx1⟩ := List.mem_map.mp hmem
          exact hx1 ▸ List.mem_map_of_mem Prod.fst (List.mem_of_mem_filter hx)
        simp [storeLoad, List.filter_cons, hq, hnone]
    · by_cases hq : q p.2 <;>
        simp [storeLoad, List.filter_cons, hq, hk, ih hrest key]

theorem storeLoad_insert_self :
    ∀ (l : List (String × Item)) (key : String) (it : Item),
      storeLoad (storeInsert l key it) key = some it := by
  intro l
  induction l with
  | nil => intro key it; simp [storeInsert, storeLoad]
  | cons p rest ih =>
    intro key it
    by_cases hk : p.1 = key <;> simp [storeInsert, storeLoad, hk, ih key it]

theorem keepDeleteTag_eq_true_iff (tag : String) (t0 : Int) (it : Item) :
    keepDeleteTag tag t0 it = true ↔ (it.CreateAfter t0 = true ∨ it.tag ≠ tag) := by
  unfold keepDeleteTag
  by_cases h1 : it.CreateAfter t0 <;> by_cases h2 : it.tag = tag <;> simp [h1, h2]

theorem keepClear_eq (t0 : Int) (it : Item) :
    keepClear t0 it = it.CreateAfter t0 := by
  unfold keepClear
  by_cases h : it.CreateAfter t0 <;> simp [h]

theorem keepGC_eq (now : Int) (it : Item) :
    keepGC now it = !(it.Expired now) := by
  unfold keepGC
  by_cases h : it.Expired now <;> simp [h]

theorem storeLoad_filterItem_iff (q : Item → Bool) (l : List (String × Item))
    (h : nodupKeys l) (key : String) (it : Item) :
    storeLoad (l.filter (fun p => q p.2)) key = some it ↔
      (storeLoad l key = some it ∧ q it = true) := by
  rw [storeLoad_filterItem q l h key]
  cases hload : storeLoad l key with
  | none => simp
  | some it0 =>
    simp only [Option.some_bind]
    by_cases hq : q it0
    · rw [if_pos hq]
      constructor
      · intro he
        injection he with he
        subst he
        exact ⟨rfl, hq⟩
      · intro hpair
        exact hpair.1
    · rw [if_neg hq]
      constructor
      · intro he
        simp at he
      · rintro ⟨he, hqt⟩
        injection he with he
        subst he
        exact absurd hqt hq

/-! ### Claim theorems -/

/-- C1: at start timestamp `t0`, `DeleteTag tag` deletes exactly the items
whose tag equals `tag` and whose `createdAt` is not after `t0`; any item
created strictly after `t0` survives even if its tag matches. -/
theorem C1_deleteTag_exact (s : Store) (tag : String) (t0 : Int)
    (h : nodupKeys s.map) (key : String) (it : Item) :
    storeLoad (DeleteTag s tag t0).map key = some it ↔
      (storeLoad s.map key = some it ∧
        (it.CreateAfter t0 = true ∨ it.tag ≠ tag)) := by
  unfold DeleteTag
  rw [storeLoad_filterItem_iff (keepDeleteTag tag t0) s.map h key it,
    keepDeleteTag_eq_true_iff]

/-- C1 witness: in the concrete store, the item under `"b"` is tagged `t`
but created after `t0 = 5`, and survives `DeleteTag "t"`. -/
theorem C1_deleteTag_exact_witness :
    nodupKeys exStore.map ∧
      storeLoad (DeleteTag exStore "t" 5).map "b" =
        some { tag := "t", data := .vInt 2, createdAt := 10, expiresAt := 0 } :=
  ⟨by decide,
    (C1_deleteTag_exact exStore "t" 5 (by decide) "b"
        { tag := "t", data := .vInt 2, createdAt := 10, expiresAt := 0 }).mpr
      ⟨by decide, Or.inl (by decide)⟩⟩

/-- C6: at start timestamp `t0`, `Clear` removes exactly the items whose
`createdAt` is not after `t0`, regardless of tag; items created strictly
after `t0` survive. -/
theorem C6_clear_exact (s : Store) (t0 : Int) (h : nodupKeys s.map)
    (key : String) (it : Item) :
    storeLoad (Clear s t0).map key = some it ↔
      (storeLoad s.map key = some it ∧ it.CreateAfter t0 = true) := by
  unfold Clear
  have hiff := storeLoad_filterItem_iff (keepClear t0) s.map h key it
  rw [keepClear_eq] at hiff
  exact hiff

/-- C6 witness: after `Clear` at `t0 = 5`, the item created at time 10
survives. -/
theorem C6_clear_exact_witness :
    nodupKeys exStore.map ∧
      storeLoad (Clear exStore 5).map "b" =
        some { tag := "t", data := .vInt 2, createdAt := 10, expiresAt := 0 } :=
  ⟨by decide,
    (C6_clear_exact exStore 5 (by decide) "b"
        { tag := "t", data := .vInt 2, createdAt := 10, expiresAt := 0 }).mpr
      ⟨by decide, by decide⟩⟩

/-- C5: at a fixed check time, `GC` removes exactly the expired items and
leaves every non-expired item unchanged; `GC` is idempotent; and `GC` never
changes the result of `Get`. -/
theorem C5_gc_spec (s : Store) (now : Int) (h : nodupKeys s.map) :
    (∀ key it, storeLoad (GC s now).map key = some it ↔
        (storeLoad s.map key = some it ∧ it.Expired now = false))
    ∧ GC (GC s now) now = GC s now
    ∧ (∀ T key, Get (GC s now) T key now = Get s T key now) := by
  refine ⟨?_, ?_, ?_⟩
  · intro key it
    unfold GC
    have hiff := storeLoad_filterItem_iff (keepGC now) s.map h key it
    rw [keepGC_eq, Bool.not_eq_true'] at hiff
    exact hiff
  · unfold GC
    simp [List.filter_filter]
  · intro T key
    unfold Get GC
    by_cases hdis : s.disabled
    · simp [hdis]
    · simp only [hdis, if_false, Bool.false_eq_true]
      rw [storeLoad_filterItem (keepGC now) s.map h key]
      cases hload : storeLoad s.map key with
      | none => rfl
      | some it0 =>
        by_cases hexp : it0.Expired now <;>
          simp [keepGC, hexp]

/-- C5 witness: applied to the concrete store at check time 5, where the
item under `"c"` is expired. -/
theorem C5_gc_spec_witness :
    nodupKeys exStore.map ∧ GC (GC exStore 5) 5 = GC exStore 5 :=
  ⟨by decide, (C5_gc_spec exStore 5 (by decide)).2.1⟩

/-- Helper: a `Set` with nil options stores an item that is found by `Get`
at every check time (no tag, zero `expiresAt`, matching runtime type). -/
theorem get_set_nil (s : Store) (key : String) (v : GoVal) (now t : Int)
    (h : s.disabled = false) :
    Get (Set s key v none now) v.typeOf key t = .found v := by
  unfold Set Get
  simp only [h, Bool.false_eq_true, if_false]
  rw [storeLoad_insert_self]
  simp [Item.Expired]

/-- C2 counterexample: with a string stored under `"k"`, the typed reads at
expected type `tInt` panic instead of reporting a not-found/mismatch
outcome. -/
theorem C2_counterexample :
    Get exMismatch .tInt "k" 2 = .panicked ∧
    GetStale exMismatch .tInt "k" = .panicked ∧
    Get exMismatch .tInt "k" 2 ≠ .notFound := by
  decide

/-- C2 amended: when an item exists under the key but its stored value's
runtime type does not match the expected type, `GetStale` panics, and `Get`
panics whenever the item is also not expired (the enabled store returns the
item to the type assertion, which fails). -/
theorem C2_mismatch_panics (s : Store) (T : GoType) (key : String)
    (now : Int) (it : Item) (hd : s.disabled = false)
    (hl : storeLoad s.map key = some it) (ht : it.data.typeOf ≠ T) :
    GetStale s T key = .panicked ∧
      (it.Expired now = false → Get s T key now = .panicked) := by
  constructor
  · simp [GetStale, hd, hl, ht]
  · intro hexp
    simp [Get, hd, hl, hexp, ht]

/-- C2 amended witness: the concrete mismatch store. -/
theorem C2_mismatch_panics_witness :
    exMismatch.disabled = false ∧
    storeLoad exMismatch.map "k" =
      some { tag := "", data := .vStr "x", createdAt := 1, expiresAt := 0 } ∧
    GoVal.typeOf (.vStr "x") ≠ .tInt ∧
    GetStale exMismatch .tInt "k" = .panicked :=
  ⟨by decide, by decide, by decide,
    (C2_mismatch_panics exMismatch .tInt "k" 2
        { tag := "", data := .vStr "x", createdAt := 1, expiresAt := 0 }
        (by decide) (by decide) (by decide)).1⟩

/-- C3: while disabled, `Set` is a no-op leaving the whole store unchanged,
`Get` and `GetStale` return not-found, and an entry written while disabled
is still absent after the flag is flipped back (the map after
`SetDisable false` is the original map). -/
theorem C3_disabled_spec (s : Store) (key : String) (v : GoVal)
    (opt : Option SetOptions) (now : Int) (T : GoType)
    (h : s.disabled = true) :
    Set s key v opt now = s ∧
    Get s T key now = .notFound ∧
    GetStale s T key = .notFound ∧
    (SetDisable (Set s key v opt now) false).map = s.map := by
  refine ⟨?_, ?_, ?_, ?_⟩ <;> simp [Set, Get, GetStale, SetDisable, h]

/-- C3 witness: the concrete disabled store, writing under `"k"`. -/
theorem C3_disabled_spec_witness :
    exDisabled.disabled = true ∧
    Set exDisabled "k" (.vInt 1) none 2 = exDisabled :=
  ⟨by decide,
    (C3_disabled_spec exDisabled "k" (.vInt 1) none 2 .tInt (by decide)).1⟩

/-- C4: an item with a present (non-zero) `expiresAt` is, at any check time
strictly after `expiresAt`, invisible to `Get` but still returned by
`GetStale`; and an item with absent (zero) `expiresAt` is never expired. -/
theorem C4_expiry_spec (s : Store) (key : String) (it : Item) (T : GoType)
    (now : Int) (hd : s.disabled = false)
    (hl : storeLoad s.map key = some it) (ht : it.data.typeOf = T) :
    (it.expiresAt ≠ 0 → it.expiresAt < now →
      Get s T key now = .notFound ∧ GetStale s T key = .found it.data)
    ∧ (∀ (it2 : Item) (t : Int), it2.expiresAt = 0 → it2.Expired t = false) := by
  constructor
  · intro hne hlt
    have hexp : it.Expired now = true := by
      unfold Item.Expired
      rw [if_neg hne]
      exact decide_eq_true hlt
    constructor
    · simp [Get, hd, hl, hexp]
    · simp [GetStale, hd, hl, ht]
  · intro it2 t hz
    unfold Item.Expired
    rw [if_pos hz]

/-- C4 witness: the item under `"c"` expires at time 4; checked at time 5. -/
theorem C4_expiry_spec_witness :
    (exStore.disabled = false ∧
      storeLoad exStore.map "c" =
        some { tag := "u", data := .vStr "x", createdAt := 1, expiresAt := 4 } ∧
      GoVal.typeOf (.vStr "x") = .tStr) ∧
    Get exStore .tStr "c" 5 = .notFound ∧
    GetStale exStore .tStr "c" = .found (.vStr "x") :=
  ⟨⟨by decide, by decide, by decide⟩,
    (C4_expiry_spec exStore "c"
        { tag := "u", data := .vStr "x", createdAt := 1, expiresAt := 4 }
        .tStr 5 (by decide) (by decide) (by decide)).1
      (by decide) (by decide)⟩

/-- C7: `RunGCInterval` with a non-positive interval returns immediately
with the store untouched and zero `GC` invocations; with a strictly
positive interval it runs `GC` once per delivered tick. -/
theorem C7_rungc_spec (s : Store) (d : Int) (ticks : List Int) :
    (d ≤ 0 → RunGCInterval s d ticks = (s, 0))
    ∧ (0 < d → (RunGCInterval s d ticks).2 = ticks.length) := by
  constructor
  · intro h
    simp [RunGCInterval, h]
  · intro h
    simp [RunGCInterval, not_le.mpr h]

/-- C7 witness: interval 0 with two pending ticks does nothing. -/
theorem C7_rungc_spec_witness :
    RunGCInterval exStore 0 [1, 2] = (exStore, 0) :=
  (C7_rungc_spec exStore 0 [1, 2]).1 (by decide)

/-- C8: on an enabled store, `Set key v nil` immediately followed by `Get`
at the same clock reading returns the value. -/
theorem C8_round_trip (s : Store) (key : String) (v : GoVal) (now : Int)
    (h : s.disabled = false) :
    Get (Set s key v none now) v.typeOf key now = .found v :=
  get_set_nil s key v now now h

/-- C8 witness. -/
theorem C8_round_trip_witness :
    Get (Set exStore "k" (.vInt 9) none 3) (GoVal.typeOf (.vInt 9)) "k" 3 =
      .found (.vInt 9) :=
  C8_round_trip exStore "k" (.vInt 9) 3 (by decide)

/-- C9: a `Set` with non-nil options and zero TTL creates an item whose
`expiresAt` equals its `createdAt` (the non-zero clock reading), so at every
strictly later check time `Get` returns not-found while `GetStale` still
returns the value; by contrast a `Set` with nil options never expires. -/
theorem C9_ttl_zero_spec (s : Store) (key : String) (v : GoVal) (tg : String)
    (now nowLater : Int) (hd : s.disabled = false) (h0 : 0 < now)
    (hlt : now < nowLater) :
    storeLoad (Set s key v (some { Tag := tg, TTL := 0 }) now).map key =
      some { tag := tg, data := v, createdAt := now, expiresAt := now }
    ∧ Get (Set s key v (some { Tag := tg, TTL := 0 }) now) v.typeOf key nowLater
        = .notFound
    ∧ GetStale (Set s key v (some { Tag := tg, TTL := 0 }) now) v.typeOf key
        = .found v
    ∧ (∀ t : Int, Get (Set s key v none now) v.typeOf key t = .found v) := by
  have hload : storeLoad (Set s key v (some { Tag := tg, TTL := 0 }) now).map key =
      some { tag := tg, data := v, createdAt := now, expiresAt := now } := by
    unfold Set
    simp only [hd, Bool.false_eq_true, if_false]
    rw [storeLoad_insert_self]
    norm_num
  have hexp : Item.Expired { tag := tg, data := v, createdAt := now, expiresAt := now } nowLater = true := by
    unfold Item.Expired
    simp only
    rw [if_neg h0.ne']
    exact decide_eq_true hlt
  refine ⟨hload, ?_, ?_, ?_⟩
  · unfold Get
    have hdis : (Set s key v (some { Tag := tg, TTL := 0 }) now).disabled = false := by
      simp [Set, hd]
    rw [hdis]
    simp only [Bool.false_eq_true, if_false]
    rw [hload]
    simp [hexp]
  · unfold GetStale
    have hdis : (Set s key v (some { Tag := tg, TTL := 0 }) now).disabled = false := by
      simp [Set, hd]
    rw [hdis]
    simp only [Bool.false_eq_true, if_false]
    rw [hload]
    simp
  · intro t
    exact get_set_nil s key v now t hd

/-- C9 witness: setting with `TTL = 0` at time 2, reading at time 3. -/
theorem C9_ttl_zero_spec_witness :
    (exStore.disabled = false ∧ (0 : Int) < 2 ∧ (2 : Int) < 3) ∧
    Get (Set exStore "k" (.vInt 5) (some { Tag := "g", TTL := 0 }) 2)
        (GoVal.typeOf (.vInt 5)) "k" 3 = .notFound :=
  ⟨⟨by decide, by decide, by decide⟩,
    (C9_ttl_zero_spec exStore "k" (.vInt 5) "g" 2 3
        (by decide) (by decide) (by decide)).2.1⟩

/-- C10: `Delete`, `DeleteTag`, `Clear` and `GC` never consult the disabled
flag: flipping it to any value leaves each operation's resulting mapping
unchanged. -/
theorem C10_ignore_disabled (s : Store) (b : Bool) (key tag : String)
    (t0 now : Int) :
    (Delete { s with disabled := b } key).map = (Delete s key).map
    ∧ (DeleteTag { s with disabled := b } tag t0).map = (DeleteTag s tag t0).map
    ∧ (Clear { s with disabled := b } t0).map = (Clear s t0).map
    ∧ (GC { s with disabled := b } now).map = (GC s now).map :=
  ⟨rfl, rfl, rfl, rfl⟩

end Cachestore
